import Mathlib

/-!
# Verification of proxy2vpn fleet deployment against its specification

Shallow embedding of the proxy2vpn sources (`src/proxy2vpn/`):
`models.py` (VPNService and compose-document conversion),
`compose_manager.py` (ComposeManager: the Configuration Store),
`fleet_manager.py` (FleetManager: planning, deployment, sanitization).

Python strings are Lean `String`s; Python `dict`s (insertion-ordered, unique
keys, in-place update) are association lists `List (String × α)` with the
update/`setdefault` operations defined below; raised exceptions are
`Except PyErr`.  Modules imported by the sources but absent from the
repository snapshot (`validators.py`, `config.py`, `profile_allocator.py`)
are modelled from the specification text and marked `Modelled from the
spec:` in their doc comments.
-/

namespace Proxy2vpn

/-- Errors raised by the embedded Python code.  Each constructor records the
exception type and the data interpolated into its message. -/
inductive PyErr where
  /-- `ValueError(f"Service {name} already exists")` from
  `ComposeManager.add_service`. -/
  | serviceExists (name : String)
  /-- `FileNotFoundError` from `Path.open("r")` on a missing file. -/
  | fileNotFound
  /-- `KeyError(f"Service {name} not found")` from
  `ComposeManager.get_service` / `remove_service`. -/
  | serviceNotFound (name : String)
  /-- Invalid port value rejected by `validators.validate_port`. -/
  | invalidPort (port : Nat)
  /-- `ValueError` from Python `int()` on a non-numeric string. -/
  | intParse (s : String)
  deriving Repr, DecidableEq

/-- Render the embedded exception the way `str(e)` does in the source
(single quotes around interpolated names are omitted). -/
def PyErr.msg : PyErr → String
  | .serviceExists name => "Service " ++ name ++ " already exists"
  | .fileNotFound => "No such file or directory"
  | .serviceNotFound name => "Service " ++ name ++ " not found"
  | .invalidPort p => "Invalid port " ++ toString p
  | .intParse s => "invalid literal for int: " ++ s

/-! ## Python `dict` as an association list -/

/-- Keys of a Python dict, in insertion order. -/
def dictKeys (l : List (String × α)) : List String := l.map Prod.fst

/-- `k in d` for a Python dict. -/
def dictMem (l : List (String × α)) (k : String) : Bool :=
  l.any (fun p => p.1 = k)

/-- `d[k] = v`: update in place if `k` is present (keeping its position),
otherwise append — exactly Python's insertion-order semantics. -/
def dictSet (l : List (String × α)) (k : String) (v : α) : List (String × α) :=
  match l with
  | [] => [(k, v)]
  | (k', v') :: t => if k' = k then (k, v) :: t else (k', v') :: dictSet t k v

/-- `d.get(k, default)`. -/
def dictGetD (l : List (String × α)) (k : String) (d : α) : α :=
  match l with
  | [] => d
  | (k', v') :: t => if k' = k then v' else dictGetD t k d

/-- `d[k]` as an option: the value stored under `k`, if any. -/
def dictGet? (l : List (String × α)) (k : String) : Option α :=
  match l with
  | [] => none
  | (k', v) :: t => if k' = k then some v else dictGet? t k

/-- `d.setdefault(k, v)`: insert only if absent. -/
def dictSetdefault (l : List (String × α)) (k : String) (v : α) :
    List (String × α) :=
  if dictMem l k then l else l ++ [(k, v)]

/-! ## Service-name sanitization (`FleetManager._sanitize_service_name`)

```python
sanitized = re.sub(r"[^A-Za-z0-9_-]", "-", name)
sanitized = re.sub(r"-+", "-", sanitized)
sanitized = sanitized.strip("-")
return sanitized.lower()
```
-/

/-- A character matched by the class `[A-Za-z0-9_-]`. -/
def validChar (c : Char) : Bool :=
  (65 ≤ c.toNat && c.toNat ≤ 90) || (97 ≤ c.toNat && c.toNat ≤ 122) ||
  (48 ≤ c.toNat && c.toNat ≤ 57) || c = '_' || c = '-'

/-- `re.sub(r"[^A-Za-z0-9_-]", "-", ·)` on the character list. -/
def subInvalid (l : List Char) : List Char :=
  l.map (fun c => if validChar c then c else '-')

/-- `re.sub(r"-+", "-", ·)`: collapse every run of dashes to one dash. -/
def collapseDashes : List Char → List Char
  | [] => []
  | c :: t =>
    match t with
    | [] => [c]
    | c' :: _ =>
      if c = '-' && c' = '-' then collapseDashes t
      else c :: collapseDashes t

/-- `str.strip("-")`: drop every leading and trailing dash. -/
def stripDashes (l : List Char) : List Char :=
  ((l.dropWhile (· = '-')).reverse.dropWhile (· = '-')).reverse

/-- `str.lower()`.  The source applies it after the substitution step, so
every argument it ever sees is in `[A-Za-z0-9_-]`, where Unicode lowercasing
coincides with ASCII `Char.toLower`. -/
def pyLower (l : List Char) : List Char := l.map Char.toLower

/-- `FleetManager._sanitize_service_name` on character lists. -/
def sanitizeChars (l : List Char) : List Char :=
  pyLower (stripDashes (collapseDashes (subInvalid l)))

/-- `FleetManager._sanitize_service_name`. -/
def sanitizeServiceName (s : String) : String := ⟨sanitizeChars s.data⟩

/-! ### Shape of sanitized output -/

/-- Characters that can appear in a sanitized name: the lower-case part of
`[A-Za-z0-9_-]`. -/
def lowerValid (c : Char) : Bool :=
  (97 ≤ c.toNat && c.toNat ≤ 122) || (48 ≤ c.toNat && c.toNat ≤ 57) ||
  c = '_' || c = '-'

/-- No two adjacent dashes. -/
def NoAdj (l : List Char) : Prop :=
  List.Chain' (fun a b => ¬(a = '-' ∧ b = '-')) l

/-! ## Decimal printing and parsing

`str(n)` and `int(s)` for the non-negative integers the sources format into
and parse out of port-mapping strings. -/

/-- The ASCII digit for `d < 10`. -/
def digitChar (d : Nat) : Char := Char.ofNat (48 + d)

/-- The decimal digits of `n`, most significant first, with enough fuel
(structural recursion so that concrete values compute). -/
def natDigitsAux (fuel : Nat) (n : Nat) : List Char :=
  match fuel with
  | 0 => []
  | fuel + 1 =>
    if n < 10 then [digitChar n]
    else natDigitsAux fuel (n / 10) ++ [digitChar (n % 10)]

/-- The decimal digits of `n`, most significant first — `str(n)` for a
non-negative Python int. -/
def natDigits (n : Nat) : List Char := natDigitsAux (n + 1) n

/-- `str(n)` for a non-negative int. -/
def printNat (n : Nat) : String := ⟨natDigits n⟩

/-- Numeric value of an ASCII digit. -/
def digitVal (c : Char) : Option Nat :=
  if 48 ≤ c.toNat ∧ c.toNat ≤ 57 then some (c.toNat - 48) else none

/-- Accumulating decimal parser; fails on any non-digit. -/
def parseDigitsAux (acc : Nat) : List Char → Option Nat
  | [] => some acc
  | c :: t =>
    match digitVal c with
    | some d => parseDigitsAux (acc * 10 + d) t
    | none => none

/-- Python `int(s)`, modelled for the plain unsigned decimal strings the
port-mapping code produces and consumes; any other string raises
(`ValueError`), modelled as `none`. -/
def pyInt (s : List Char) : Option Nat :=
  match s with
  | [] => none
  | c :: t => parseDigitsAux 0 (c :: t)

/-! ## String splitting (`str.split`) -/

/-- `s.split(sep)` for a one-character separator (no maxsplit). -/
def splitOnChar (sep : Char) : List Char → List (List Char)
  | [] => [[]]
  | c :: t =>
    match splitOnChar sep t with
    | [] => [[c]]
    | h :: r => if c = sep then [] :: h :: r else (c :: h) :: r

/-- `s.split(sep, 1)` restricted to the case where `sep` occurs: returns the
part before the first separator and everything after it, or `none` if `sep`
does not occur (the source guards this with `"=" in item`). -/
def splitFirst (sep : Char) : List Char → Option (List Char × List Char)
  | [] => none
  | c :: t =>
    if c = sep then some ([], t)
    else (splitFirst sep t).map (fun p => (c :: p.1, p.2))

/-! ## Modelled `validators.py` and `config.py`

These two modules are imported by `models.py` but are not part of the
repository snapshot, so they are modelled from the specification. -/

/-- Modelled from the spec: `validators.sanitize_name` (module `validators.py`
is missing from the snapshot).  §3 says a service name is "sanitized to a
restricted character set", and the only sanitization rule the spec states
(§4.3 step 5) is: replace any character outside `[A-Za-z0-9_-]` with `-`,
collapse repeated `-`, trim leading/trailing `-`, lower-case the result. -/
def sanitize_name (s : String) : String := ⟨sanitizeChars s.data⟩

/-- Modelled from the spec: `validators.validate_port` (module `validators.py`
is missing from the snapshot).  The spec's data model reserves `port` and
`control_port` for exposed TCP ports, so the validator accepts exactly the
legal TCP port numbers 1–65535 and raises otherwise. -/
def validate_port (p : Nat) : Except PyErr Nat :=
  if 1 ≤ p ∧ p ≤ 65535 then .ok p else .error (.invalidPort p)

/-- Modelled from the spec: `config.DEFAULT_CONTROL_PORT_START` (module
`config.py` is missing from the snapshot).  The comment in
`VPNService._calculate_control_port` fixes the reserved range as
`18000-19999`, so the base is 18000. -/
def DEFAULT_CONTROL_PORT_START : Nat := 18000

/-! ## `models.VPNService` -/

/-- `VPNService` after `__post_init__` has run: the dataclass fields.
Python dicts are association lists in insertion order. -/
structure VPNService where
  name : String
  port : Nat
  provider : String
  profile : String
  location : String
  environment : List (String × String)
  labels : List (String × String)
  control_port : Nat
  deriving Repr, DecidableEq

/-- `VPNService._calculate_control_port`:
`DEFAULT_CONTROL_PORT_START + hash(self.name) % 2000`.
`pyHash` is the interpreter's `hash` on `str` for the current run; Python's
`%` on a possibly negative hash is `Int.emod`. -/
def calculateControlPort (pyHash : String → Int) (name : String) : Nat :=
  DEFAULT_CONTROL_PORT_START + ((pyHash name).emod 2000).toNat

/-- `VPNService(...)` construction including `__post_init__`: the name is
sanitized, the port validated, and a zero `control_port` is replaced by the
hash-derived one (a nonzero one is validated). -/
def mkVPNService (pyHash : String → Int) (name : String) (port : Nat)
    (provider profile location : String)
    (environment labels : List (String × String))
    (control_port : Nat) : Except PyErr VPNService := do
  let name := sanitize_name name
  let port ← validate_port port
  let control_port ←
    if control_port = 0 then pure (calculateControlPort pyHash name)
    else validate_port control_port
  pure { name, port, provider, profile, location, environment, labels,
         control_port }

/-! ## Compose-document services (`to_compose_service` / `from_compose_service`) -/

/-- One entry of the document's `services` section, as the source reads and
writes it. -/
structure ComposeService where
  ports : List String
  environment : List String
  labels : List (String × String)
  deriving Repr, DecidableEq

/-- `VPNService.to_compose_service`. -/
def toComposeService (svc : VPNService) : ComposeService :=
  { ports := [printNat svc.port ++ ":8888/tcp",
              printNat svc.control_port ++ ":8000/tcp"]
  , environment := svc.environment.map (fun p => p.1 ++ "=" ++ p.2)
  , labels := dictSetdefault
      (dictSetdefault svc.labels "vpn.port" (printNat svc.port))
      "vpn.control_port" (printNat svc.control_port) }

/-- The `parts = mapping.split(":")` branch analysis of
`from_compose_service`: host port and container part of one mapping;
`int()` on a non-numeric part raises. -/
def parsePortMapping (m : String) : Except PyErr (Nat × List Char) :=
  match splitOnChar ':' m.data with
  | [] => .error (.intParse m)
  | [p0] =>
    match pyInt p0 with
    | some host => .ok (host, [])
    | none => .error (.intParse ⟨p0⟩)
  | [p0, p1] =>
    match pyInt p0 with
    | some host => .ok (host, p1)
    | none => .error (.intParse ⟨p0⟩)
  | _ :: p1 :: p2 :: _ =>
    match pyInt p1 with
    | some host => .ok (host, p2)
    | none => .error (.intParse ⟨p1⟩)

/-- `container.split("/")[0]`. -/
def containerPort (container : List Char) : List Char :=
  match splitOnChar '/' container with
  | [] => []
  | h :: _ => h

/-- The `for mapping in ports` loop of `from_compose_service`, threading
`(host_port, control_port)`, both initially 0. -/
def scanPortMappings (acc : Nat × Nat) : List String → Except PyErr (Nat × Nat)
  | [] => .ok acc
  | m :: rest => do
    let (host, container) ← parsePortMapping m
    let cp := containerPort container
    let acc' :=
      if cp = "8888".data ∧ acc.1 = 0 then (host, acc.2)
      else if cp = "8000".data ∧ acc.2 = 0 then (acc.1, host)
      else acc
    scanPortMappings acc' rest

/-- The environment-list parsing of `from_compose_service`: items containing
`=` are split once and inserted into the dict; others are skipped. -/
def parseEnvList (items : List String) : List (String × String) :=
  items.foldl
    (fun d item =>
      match splitFirst '=' item.data with
      | some (k, v) => dictSet d ⟨k⟩ ⟨v⟩
      | none => d)
    []

/-- `VPNService.from_compose_service`. -/
def fromComposeService (pyHash : String → Int) (name : String)
    (sd : ComposeService) : Except PyErr VPNService := do
  let ports ← scanPortMappings (0, 0) sd.ports
  let envDict := parseEnvList sd.environment
  let labels := sd.labels
  let provider := dictGetD labels "vpn.provider"
    (dictGetD envDict "VPN_SERVICE_PROVIDER" "")
  let profile := dictGetD labels "vpn.profile" ""
  let location := dictGetD labels "vpn.location"
    (dictGetD envDict "SERVER_CITIES" "")
  mkVPNService pyHash name ports.1 provider profile location envDict labels
    ports.2

/-! ## `compose_manager.ComposeManager` (the Configuration Store)

The persisted YAML document; only its `services` section is read or written
by the modelled operations (`x-config` and the profile anchors are carried
through unchanged by the source), so the document is modelled by that
section.  The YAML layer (`ruamel.yaml`) is an external collaborator assumed
to round-trip the document value; "the document on disk" is therefore the
`ComposeDoc` value last saved. -/
structure ComposeDoc where
  services : List (String × ComposeService)
  deriving Repr, DecidableEq

/-- A document with no services. -/
def emptyComposeDoc : ComposeDoc := ⟨[]⟩

/-- `ComposeManager._load` (run by the constructor): `compose_path.open("r")`
raises `FileNotFoundError` when the file does not exist; otherwise the parsed
document is returned.  The filesystem at the path is `Option ComposeDoc`. -/
def composeLoad (file : Option ComposeDoc) : Except PyErr ComposeDoc :=
  match file with
  | none => .error .fileNotFound
  | some d => .ok d

/-- `ComposeManager.add_service`: raises `ValueError` when the name is
already a key of the services dict; otherwise inserts the converted service
and saves.  The returned document is the new in-memory and on-disk state; on
error nothing was mutated, so the caller's document is unchanged. -/
def addService (svc : VPNService) (doc : ComposeDoc) : Except PyErr ComposeDoc :=
  if dictMem doc.services svc.name then .error (.serviceExists svc.name)
  else .ok ⟨doc.services ++ [(svc.name, toComposeService svc)]⟩

/-- `ComposeManager.get_service`. -/
def getService (pyHash : String → Int) (name : String) (doc : ComposeDoc) :
    Except PyErr VPNService :=
  match dictGet? doc.services name with
  | none => .error (.serviceNotFound name)
  | some sd => fromComposeService pyHash name sd

/-- `ComposeManager.list_services`. -/
def listServices (pyHash : String → Int) (doc : ComposeDoc) :
    Except PyErr (List VPNService) :=
  doc.services.mapM (fun p => fromComposeService pyHash p.1 p.2)

/-! ## `fleet_manager` data model -/

/-- `fleet_manager.ServicePlan`. -/
structure ServicePlan where
  name : String
  profile : String
  location : String
  country : String
  port : Nat
  provider : String
  deriving Repr, DecidableEq

/-- `fleet_manager.DeploymentPlan`. -/
structure DeploymentPlan where
  provider : String
  services : List ServicePlan
  deriving Repr, DecidableEq

/-- `DeploymentPlan.service_names`. -/
def serviceNames (p : DeploymentPlan) : List String :=
  p.services.map ServicePlan.name

/-- `fleet_manager.DeploymentResult`. -/
structure DeploymentResult where
  deployed : Nat
  failed : Nat
  services : List String
  errors : List String
  deriving Repr, DecidableEq

/-! ## `FleetManager.deploy_fleet` -/

/-- The labels dict built for a plan entry in `deploy_fleet`. -/
def deployLabels (sp : ServicePlan) : List (String × String) :=
  [("vpn.type", "vpn"), ("vpn.port", printNat sp.port),
   ("vpn.provider", sp.provider), ("vpn.profile", sp.profile),
   ("vpn.location", sp.location)]

/-- The environment dict built for a plan entry in `deploy_fleet`. -/
def deployEnvironment (sp : ServicePlan) : List (String × String) :=
  [("VPN_SERVICE_PROVIDER", sp.provider), ("SERVER_CITIES", sp.location)]

/-- One iteration of the service-creation loop of `deploy_fleet`: construct
the `VPNService` and `add_service` it; on success `deployed += 1`, on any
exception `failed += 1` and the error message is appended.  State:
`(store document, deployed, failed, errors)`. -/
def deployStep (pyHash : String → Int)
    (st : ComposeDoc × Nat × Nat × List String) (sp : ServicePlan) :
    ComposeDoc × Nat × Nat × List String :=
  let (doc, deployed, failed, errors) := st
  match (mkVPNService pyHash sp.name sp.port sp.provider sp.profile
      sp.location (deployEnvironment sp) (deployLabels sp) 0).bind
      (fun svc => addService svc doc) with
  | .ok newDoc => (newDoc, deployed + 1, failed, errors)
  | .error e =>
    (doc, deployed, failed + 1,
     errors ++ ["Failed to create service " ++ sp.name ++ ": " ++ e.msg])

/-- What `deploy_fleet` leaves behind: the returned `DeploymentResult`, the
final store document, and the names handed to the container-start phase
(`[s.name for s in plan.services if s.name]` — passed to
`_start_services_parallel` or `_start_services_sequential`, which attempt a
create+start for each listed name). -/
structure DeployOutcome where
  result : DeploymentResult
  doc : ComposeDoc
  startAttempts : List String
  deriving Repr, DecidableEq

/-- `FleetManager.deploy_fleet` (the store-mutation phase in plan order,
then the start list; container starts themselves are Runtime-Adapter calls
outside the store model). -/
def deployFleet (pyHash : String → Int) (plan : DeploymentPlan)
    (doc : ComposeDoc) : DeployOutcome :=
  let st := plan.services.foldl (deployStep pyHash) (doc, 0, 0, [])
  { result := { deployed := st.2.1, failed := st.2.2.1,
                services := serviceNames plan, errors := st.2.2.2 }
  , doc := st.1
  , startAttempts :=
      (plan.services.filter (fun s => s.name ≠ "")).map ServicePlan.name }

/-! ## `FleetManager.plan_deployment` and the Profile Allocator -/

/-- Modelled from the spec: `profile_allocator.ProfileAllocator` (module
`profile_allocator.py` is missing from the snapshot).  Per §4.2 the
allocator keeps a remaining-capacity counter per profile;
`setup_profiles` initializes remaining = declared capacity (the
`FleetManager` constructs a fresh allocator, so no slots are occupied);
`get_next_available` returns the first profile in declaration order with
remaining > 0, or none; `allocate_slot` decrements the profile's remaining
counter (the occupying service name it also records plays no role in the
claims).  Allocator state: the remaining-capacity list in declaration
order. -/
def setupProfiles (caps : List (String × Nat)) : List (String × Nat) := caps

/-- Modelled from the spec: `ProfileAllocator.get_next_available`, see
`setupProfiles`. -/
def getNextAvailable (rem : List (String × Nat)) : Option String :=
  (rem.find? (fun p => 0 < p.2)).map Prod.fst

/-- Modelled from the spec: `ProfileAllocator.allocate_slot`, see
`setupProfiles`. -/
def allocateSlot (rem : List (String × Nat)) (profile : String) :
    List (String × Nat) :=
  rem.map (fun p => if p.1 = profile then (p.1, p.2 - 1) else p)

/-- `fleet_manager.FleetConfig` (the naming template is fixed at its default
`"{provider}-{country}-{city}"`, rendered by `renderName`). -/
structure FleetConfig where
  provider : String
  countries : List String
  profiles : List (String × Nat)
  port_start : Nat
  deriving Repr, DecidableEq

/-- `country.lower().replace(" ", "-")` (and the same for the city). -/
def lowerHyph (s : String) : String :=
  ⟨(pyLower s.data).map (fun c => if c = ' ' then '-' else c)⟩

/-- `config.naming_template.format(provider=..., country=..., city=...)`
with the default template `"{provider}-{country}-{city}"`. -/
def renderName (provider country city : String) : String :=
  provider ++ "-" ++ lowerHyph country ++ "-" ++ lowerHyph city

/-- The city-gathering loop of `plan_deployment`: per country the location
catalog (`ServerManager.list_cities`, an external collaborator modelled as a
function) returns the city list or raises (`none`), in which case the
country is skipped. -/
def allCities (catalog : String → String → Option (List String))
    (cfg : FleetConfig) : List (String × String) :=
  (cfg.countries.map (fun country =>
    match catalog cfg.provider country with
    | some cities => cities.map (fun city => (country, city))
    | none => [])).flatten

/-- The allocation loop of `plan_deployment`: for each (country, city) pull
the next free profile slot (stop early when none), render and sanitize the
service name, assign the next sequential port, allocate the slot. -/
def planLoop (provider : String) : List (String × String) →
    List (String × Nat) → Nat → List ServicePlan
  | [], _, _ => []
  | (country, city) :: rest, rem, port =>
    match getNextAvailable rem with
    | none => []
    | some prof =>
      { name := sanitizeServiceName (renderName provider country city)
      , profile := prof
      , location := city
      , country := country
      , port := port
      , provider := provider } ::
        planLoop provider rest (allocateSlot rem prof) (port + 1)

/-- `FleetManager.plan_deployment`. -/
def planDeployment (catalog : String → String → Option (List String))
    (cfg : FleetConfig) : DeploymentPlan :=
  let cities := allCities catalog cfg
  let totalSlots := (cfg.profiles.map Prod.snd).sum
  let cities := if cities.length > totalSlots then cities.take totalSlots
                else cities
  { provider := cfg.provider
  , services := planLoop cfg.provider cities (setupProfiles cfg.profiles)
      cfg.port_start }

/-! ## CPython `hash()` on `str`

`_calculate_control_port` calls the builtin `hash` on the service name.
CPython computes it with SipHash-1-3 (`pyhash.c`, the default since 3.11,
the interpreter version this package runs on) over the string's byte buffer,
keyed by `_Py_HashSecret`.  The key is derived from the `PYTHONHASHSEED`
environment variable: seed 0 gives the all-zero key, a nonzero seed seeds
the 32-bit LCG `x = x*214013 + 2531011` whose bytes `(x >> 16) & 0xff` fill
the secret, and an unset seed draws the key from the OS at interpreter
startup — so the key, and hence `hash`, varies from run to run.  All 64-bit
words are `Nat`s reduced mod `2^64`.  Strings are modelled at ASCII names
(the buffer bytes are then the code points), which covers every sanitized
service name. -/

/-- `2^64`. -/
def M64 : Nat := 18446744073709551616

/-- 64-bit addition. -/
def add64 (a b : Nat) : Nat := (a + b) % M64

/-- 64-bit rotate left by `s` (for `a < 2^64`, `0 < s < 64`). -/
def rotl64 (a s : Nat) : Nat := ((a <<< s) % M64) ||| (a >>> (64 - s))

/-- `HALF_ROUND(a,b,c,d,s,t)` of `pyhash.c`. -/
def halfRound (a b c d s t : Nat) : Nat × Nat × Nat × Nat :=
  let a := add64 a b
  let c := add64 c d
  let b := (rotl64 b s) ^^^ a
  let d := (rotl64 d t) ^^^ c
  let a := rotl64 a 32
  (a, b, c, d)

/-- `SINGLE_ROUND(v0,v1,v2,v3)` of `pyhash.c`:
`HALF_ROUND(v0,v1,v2,v3,13,16); HALF_ROUND(v2,v1,v0,v3,17,21)`. -/
def singleRound (v0 v1 v2 v3 : Nat) : Nat × Nat × Nat × Nat :=
  let (v0, v1, v2, v3) := halfRound v0 v1 v2 v3 13 16
  let (v2, v1, v0, v3) := halfRound v2 v1 v0 v3 17 21
  (v0, v1, v2, v3)

/-- Little-endian word value of a byte list. -/
def le64 (bs : List Nat) : Nat := bs.foldr (fun b acc => b + 256 * acc) 0

/-- The 8-byte-block loop of `siphash13`; returns the state and the
remaining (< 8) tail bytes. -/
def sipBlocks (st : Nat × Nat × Nat × Nat) :
    List Nat → (Nat × Nat × Nat × Nat) × List Nat
  | b0 :: b1 :: b2 :: b3 :: b4 :: b5 :: b6 :: b7 :: rest =>
    let (v0, v1, v2, v3) := st
    let mi := le64 [b0, b1, b2, b3, b4, b5, b6, b7]
    let (v0, v1, v2, v3) := singleRound v0 v1 v2 (v3 ^^^ mi)
    sipBlocks (v0 ^^^ mi, v1, v2, v3) rest
  | rest => (st, rest)

/-- `siphash13(k0, k1, src, src_sz)` of `pyhash.c` on a byte list. -/
def siphash13 (k0 k1 : Nat) (data : List Nat) : Nat :=
  let b := ((data.length % M64) <<< 56) % M64
  let v0 := k0 ^^^ 0x736f6d6570736575
  let v1 := k1 ^^^ 0x646f72616e646f6d
  let v2 := k0 ^^^ 0x6c7967656e657261
  let v3 := k1 ^^^ 0x7465646279746573
  let (st, tail) := sipBlocks (v0, v1, v2, v3) data
  let (v0, v1, v2, v3) := st
  let b := b ||| le64 tail
  let (v0, v1, v2, v3) := singleRound v0 v1 v2 (v3 ^^^ b)
  let (v0, v1, v2, v3) := singleRound (v0 ^^^ b) v1 (v2 ^^^ 0xff) v3
  let (v0, v1, v2, v3) := singleRound v0 v1 v2 v3
  let (v0, v1, v2, v3) := singleRound v0 v1 v2 v3
  (v0 ^^^ v1) ^^^ (v2 ^^^ v3)

/-- `lcg_urandom` of `bootstrap_hash.c`: successive bytes
`(x >> 16) & 0xff` of the 32-bit LCG `x = x*214013 + 2531011`. -/
def lcgStream (x : Nat) : Nat → List Nat
  | 0 => []
  | n + 1 =>
    let x' := (x * 214013 + 2531011) % 4294967296
    ((x' >>> 16) % 256) :: lcgStream x' n

/-- The SipHash key `(k0, k1)` of `_Py_HashSecret` under `PYTHONHASHSEED =
seed`: zero seed zeroes the secret, a nonzero seed fills it from the LCG;
the two 64-bit words are read little-endian. -/
def hashKey (seed : Nat) : Nat × Nat :=
  if seed = 0 then (0, 0)
  else
    let bs := lcgStream (seed % 4294967296) 16
    (le64 (bs.take 8), le64 (bs.drop 8))

/-- Two to the sixty-third. -/
def M63 : Nat := 9223372036854775808

/-- CPython `hash()` on an ASCII `str` in the run whose hash seed is `seed`
(`_Py_HashBytes`): empty strings hash to 0, the SipHash-1-3 word is
reinterpreted as a signed 64-bit `Py_hash_t`, and -1 becomes -2. -/
def pyHashSeeded (seed : Nat) (s : String) : Int :=
  let data := s.data.map Char.toNat
  if data.length = 0 then 0
  else
    let t := siphash13 (hashKey seed).1 (hashKey seed).2 data
    let x : Int := if t < M63 then (t : Int) else (t : Int) - (M64 : Int)
    if x = -1 then -2 else x

/-! ## Helper folds and concrete instances used by the claims -/

/-- A fixed interpreter hash, used to instantiate closed statements whose
outcome does not depend on which run's hash function is in effect. -/
def pyHash0 : String → Int := fun _ => 0

/-- A caller issuing a sequence of `add_service` calls, keeping its document
whenever a call raises — the store-mutation behaviour of `deploy_fleet`. -/
def addAll (svcs : List VPNService) (doc : ComposeDoc) : ComposeDoc :=
  svcs.foldl
    (fun d svc =>
      match addService svc d with
      | .ok d2 => d2
      | .error _ => d)
    doc

/-- The document `add_service` saves on success. -/
def composeAfterAdd (svc : VPNService) (doc : ComposeDoc) : ComposeDoc :=
  ⟨doc.services ++ [(svc.name, toComposeService svc)]⟩

/-- The profile slots of an allocator state, in declaration order: each
profile name repeated as many times as it has remaining slots. -/
def profFlat (rem : List (String × Nat)) : List String :=
  (rem.map (fun q => List.replicate q.2 q.1)).flatten

/-- Two `add_service` calls for distinct names that share `port` 5000 and
`control_port` 18500, starting from an empty store. -/
def c2deployDoc : Except PyErr ComposeDoc :=
  (mkVPNService pyHash0 "svc-a" 5000 "prov" "p1" "loc1" [] [] 18500).bind
    (fun s1 => (addService s1 emptyComposeDoc).bind
      (fun d1 =>
        (mkVPNService pyHash0 "svc-b" 5000 "prov" "p1" "loc2" [] [] 18500).bind
          (fun s2 => addService s2 d1)))

/-- A two-entry plan whose 2nd entry reuses the 1st entry's name, so its
store-add fails. -/
def planAA : DeploymentPlan :=
  ⟨"prov",
   [⟨"svc-a", "p1", "loc1", "c1", 20000, "prov"⟩,
    ⟨"svc-a", "p1", "loc2", "c1", 20001, "prov"⟩]⟩

/-- A store that already holds a service named `svc-b`. -/
def c4doc0 : ComposeDoc :=
  ⟨[("svc-b",
     toComposeService ⟨"svc-b", 20010, "prov", "p1", "locb", [], [], 18001⟩)]⟩

/-- A two-entry plan whose 2nd entry collides with the pre-existing
`svc-b` of `c4doc0`. -/
def planAB : DeploymentPlan :=
  ⟨"prov",
   [⟨"svc-a", "p1", "loc1", "c1", 20000, "prov"⟩,
    ⟨"svc-b", "p1", "loc2", "c1", 20001, "prov"⟩]⟩

/-- A concrete service whose labels carry all the `vpn.*` metadata the
compose round trip recovers fields from. -/
def c5svc : VPNService :=
  ⟨"vpn3", 7777, "protonvpn", "test", "LA",
   [("VPN_SERVICE_PROVIDER", "protonvpn"), ("SERVER_CITIES", "LA")],
   [("vpn.type", "vpn"), ("vpn.port", "7777"), ("vpn.provider", "protonvpn"),
    ("vpn.profile", "test"), ("vpn.location", "LA"),
    ("vpn.control_port", "18500")],
   18500⟩

/-- A concrete service used to exercise repeated `add_service` calls. -/
def c2svcW : VPNService := ⟨"svc-a", 5000, "prov", "p1", "loc1", [], [], 18500⟩

/-- A service with empty labels and environment: the compose round trip
cannot recover its `provider`/`profile`/`location` fields. -/
def c5bad : VPNService := ⟨"plain", 6000, "prov", "pro", "loc", [], [], 18600⟩

/-- The location catalog of the spec's end-to-end example: country `A` has
`City1`, country `B` has `City2`. -/
def c8catalog : String → String → Option (List String) := fun _ country =>
  if country = "A" then some ["City1"]
  else if country = "B" then some ["City2"]
  else none

/-- The fleet request of the spec's end-to-end example. -/
def c8cfg : FleetConfig :=
  ⟨"prov", ["A", "B"], [("acc1", 1), ("acc2", 1)], 30000⟩

theorem noAdj_nil : NoAdj [] := List.chain'_nil

theorem noAdj_tail {c : Char} {t : List Char} (h : NoAdj (c :: t)) : NoAdj t :=
  List.Chain'.tail h

theorem collapseDashes_head_dash (t : List Char) :
    (collapseDashes ('-' :: t)).head? = some '-' := by
  induction t with
  | nil => rfl
  | cons c' t' ih =>
    by_cases hc : c' = '-'
    · subst hc
      simpa [collapseDashes] using ih
    · simp [collapseDashes, hc]

theorem noAdj_collapseDashes (l : List Char) : NoAdj (collapseDashes l) := by
  induction l with
  | nil => exact noAdj_nil
  | cons c t ih =>
    match t with
    | [] => simp [collapseDashes, NoAdj]
    | c' :: t' =>
      by_cases hb : c = '-' ∧ c' = '-'
      · simpa [collapseDashes, hb.1, hb.2] using ih
      · have hcol : collapseDashes (c :: c' :: t') =
            c :: collapseDashes (c' :: t') := by
          rcases Decidable.not_and_iff_or_not.mp hb with h | h <;>
            simp [collapseDashes, h]
        rw [hcol]
        refine List.chain'_cons'.mpr ⟨?_, ih⟩
        intro y hy
        intro hcontra
        rcases hcontra with ⟨hc, hy'⟩
        subst hc
        rcases hb with hb
        have hc' : c' ≠ '-' := by
          intro h
          exact hb ⟨rfl, h⟩
        by_cases ht' : t' = []
        · subst ht'
          simp [collapseDashes] at hy
          exact hc' (hy ▸ hy')
        · have : (collapseDashes (c' :: t')).head? = some c' := by
            match t', ht' with
            | c'' :: t'', _ =>
              simp [collapseDashes, hc']
          rw [this] at hy
          cases hy
          exact hc' hy'

theorem collapseDashes_eq_self {l : List Char} (h : NoAdj l) :
    collapseDashes l = l := by
  induction l with
  | nil => rfl
  | cons c t ih =>
    match t with
    | [] => rfl
    | c' :: t' =>
      have hpair : ¬(c = '-' ∧ c' = '-') :=
        (List.chain'_cons.mp h).1
      have ht : collapseDashes (c' :: t') = c' :: t' := ih (noAdj_tail h)
      have hcol : collapseDashes (c :: c' :: t') =
          c :: collapseDashes (c' :: t') := by
        rcases Decidable.not_and_iff_or_not.mp hpair with h1 | h1 <;>
          simp [collapseDashes, h1]
      rw [hcol, ht]

theorem mem_collapseDashes {c : Char} {l : List Char}
    (h : c ∈ collapseDashes l) : c ∈ l := by
  induction l with
  | nil => simp [collapseDashes] at h
  | cons a t ih =>
    match t with
    | [] =>
      simp [collapseDashes] at h
      simp [h]
    | a' :: t' =>
      by_cases hb : a = '-' ∧ a' = '-'
      · rw [show collapseDashes (a :: a' :: t') = collapseDashes (a' :: t') by
          simp [collapseDashes, hb.1, hb.2]] at h
        exact List.mem_cons_of_mem _ (ih h)
      · rw [show collapseDashes (a :: a' :: t') =
            a :: collapseDashes (a' :: t') by
          rcases Decidable.not_and_iff_or_not.mp hb with h1 | h1 <;>
            simp [collapseDashes, h1]] at h
        rcases List.mem_cons.mp h with h | h
        · simp [h]
        · exact List.mem_cons_of_mem _ (ih h)

theorem head_dropWhile_ne {l : List Char} {h : Char}
    (hh : (l.dropWhile (· = '-')).head? = some h) : h ≠ '-' := by
  induction l with
  | nil => simp at hh
  | cons c t ih =>
    by_cases hc : c = '-'
    · rw [List.dropWhile_cons, if_pos (by simp [hc])] at hh
      exact ih hh
    · rw [List.dropWhile_cons, if_neg (by simp [hc])] at hh
      cases hh
      exact hc

theorem getLast_dropWhile {l : List Char}
    (hne : l.dropWhile (· = '-') ≠ []) :
    (l.dropWhile (· = '-')).getLast? = l.getLast? := by
  induction l with
  | nil => simp at hne
  | cons c t ih =>
    by_cases hc : c = '-'
    · rw [List.dropWhile_cons, if_pos (by simp [hc])] at hne ⊢
      have ht : t ≠ [] := by
        intro h
        subst h
        simp at hne
      rw [ih hne]
      match t, ht with
      | c' :: t', _ => rw [List.getLast?_cons_cons]
    · rw [List.dropWhile_cons, if_neg (by simp [hc])]

theorem mem_dropWhile {c : Char} {l : List Char}
    (h : c ∈ l.dropWhile (· = '-')) : c ∈ l := by
  induction l with
  | nil => simp at h
  | cons a t ih =>
    by_cases ha : a = '-'
    · rw [List.dropWhile_cons, if_pos (by simp [ha])] at h
      exact List.mem_cons_of_mem _ (ih h)
    · rw [List.dropWhile_cons, if_neg (by simp [ha])] at h
      exact h

theorem noAdj_dropWhile {l : List Char} (h : NoAdj l) :
    NoAdj (l.dropWhile (· = '-')) := by
  induction l with
  | nil => exact noAdj_nil
  | cons c t ih =>
    by_cases hc : c = '-'
    · rw [List.dropWhile_cons, if_pos (by simp [hc])]
      exact ih (noAdj_tail h)
    · rw [List.dropWhile_cons, if_neg (by simp [hc])]
      exact h

theorem noAdj_reverse {l : List Char} (h : NoAdj l) : NoAdj l.reverse := by
  rw [NoAdj, List.chain'_reverse]
  exact h.imp (fun a b hab hc => hab ⟨hc.2, hc.1⟩)

theorem dropWhile_eq_self_of_head {l : List Char}
    (h : ∀ c, l.head? = some c → c ≠ '-') : l.dropWhile (· = '-') = l := by
  match l with
  | [] => rfl
  | c :: t =>
    rw [List.dropWhile_cons, if_neg (by simp [h c rfl])]

/-! ### `stripDashes` facts -/

theorem noAdj_stripDashes {l : List Char} (h : NoAdj l) :
    NoAdj (stripDashes l) :=
  noAdj_reverse (noAdj_dropWhile (noAdj_reverse (noAdj_dropWhile h)))

theorem mem_stripDashes {c : Char} {l : List Char}
    (h : c ∈ stripDashes l) : c ∈ l := by
  rw [stripDashes, List.mem_reverse] at h
  have h1 := mem_dropWhile h
  rw [List.mem_reverse] at h1
  exact mem_dropWhile h1

theorem stripDashes_head_ne {l : List Char} {c : Char}
    (h : (stripDashes l).head? = some c) : c ≠ '-' := by
  rw [stripDashes, List.head?_reverse] at h
  have hne : (List.dropWhile (· = '-') (List.dropWhile (· = '-') l).reverse) ≠ [] := by
    intro he
    rw [he] at h
    simp at h
  rw [getLast_dropWhile hne, List.getLast?_reverse] at h
  exact head_dropWhile_ne h

theorem stripDashes_getLast_ne {l : List Char} {c : Char}
    (h : (stripDashes l).getLast? = some c) : c ≠ '-' := by
  rw [stripDashes, List.getLast?_reverse] at h
  exact head_dropWhile_ne h

theorem stripDashes_eq_self {l : List Char}
    (hh : ∀ c, l.head? = some c → c ≠ '-')
    (hl : ∀ c, l.getLast? = some c → c ≠ '-') : stripDashes l = l := by
  rw [stripDashes, dropWhile_eq_self_of_head hh]
  rw [dropWhile_eq_self_of_head (fun c hc => hl c (by rwa [List.head?_reverse] at hc))]
  exact List.reverse_reverse l

/-! ### Character-class facts -/

theorem toNat_ofNat_valid {n : Nat} (h : n < 55296) : (Char.ofNat n).toNat = n := by
  rw [Char.ofNat, dif_pos (Or.inl h)]
  rfl

theorem toLower_spec (c : Char) :
    Char.toLower c =
      if 65 ≤ c.toNat ∧ c.toNat ≤ 90 then Char.ofNat (c.toNat + 32) else c := rfl

theorem toLower_eq_dash {c : Char} (h : Char.toLower c = '-') : c = '-' := by
  rw [toLower_spec] at h
  by_cases hc : 65 ≤ c.toNat ∧ c.toNat ≤ 90
  · rw [if_pos hc] at h
    have h1 : (Char.ofNat (c.toNat + 32)).toNat = c.toNat + 32 :=
      toNat_ofNat_valid (by omega)
    rw [h] at h1
    have : ('-').toNat = 45 := rfl
    omega
  · rwa [if_neg hc] at h

theorem toLower_fixed {c : Char} (h : lowerValid c) : Char.toLower c = c := by
  rw [toLower_spec, if_neg]
  intro hc
  rw [lowerValid] at h
  simp only [Bool.or_eq_true, Bool.and_eq_true, decide_eq_true_eq] at h
  rcases h with ((⟨h1, h2⟩ | ⟨h1, h2⟩) | h1) | h1
  · omega
  · omega
  · subst h1
    exact absurd hc (by decide)
  · subst h1
    exact absurd hc (by decide)

theorem lowerValid_toLower {c : Char} (h : validChar c) :
    lowerValid (Char.toLower c) := by
  rw [validChar] at h
  simp only [Bool.or_eq_true, Bool.and_eq_true, decide_eq_true_eq] at h
  rcases h with (((⟨h1, h2⟩ | ⟨h1, h2⟩) | ⟨h1, h2⟩) | h1) | h1
  · rw [toLower_spec, if_pos ⟨h1, h2⟩]
    have h3 : (Char.ofNat (c.toNat + 32)).toNat = c.toNat + 32 :=
      toNat_ofNat_valid (by omega)
    rw [lowerValid, h3]
    simp only [Bool.or_eq_true, Bool.and_eq_true, decide_eq_true_eq]
    left
    left
    left
    omega
  · rw [toLower_spec, if_neg (by omega), lowerValid]
    simp only [Bool.or_eq_true, Bool.and_eq_true, decide_eq_true_eq]
    left
    left
    left
    omega
  · rw [toLower_spec, if_neg (by omega), lowerValid]
    simp only [Bool.or_eq_true, Bool.and_eq_true, decide_eq_true_eq]
    left
    left
    right
    omega
  · subst h1
    rfl
  · subst h1
    rfl

theorem validChar_dash : validChar '-' = true := rfl

theorem mem_subInvalid {c : Char} {l : List Char} (h : c ∈ subInvalid l) :
    validChar c = true := by
  rw [subInvalid] at h
  rcases List.mem_map.mp h with ⟨b, _, hb⟩
  by_cases hv : validChar b
  · rw [if_pos hv] at hb
    rw [← hb]
    exact hv
  · rw [if_neg hv] at hb
    rw [← hb]
    rfl

theorem subInvalid_eq_self {l : List Char} (h : ∀ c ∈ l, validChar c) :
    subInvalid l = l := by
  rw [subInvalid]
  conv_rhs => rw [← List.map_id l]
  exact List.map_congr_left (fun c hc => by rw [if_pos (h c hc)]; rfl)

theorem lowerValid_validChar {c : Char} (h : lowerValid c) : validChar c = true := by
  rw [lowerValid] at h
  rw [validChar]
  simp only [Bool.or_eq_true, Bool.and_eq_true, decide_eq_true_eq] at h ⊢
  rcases h with ((⟨h1, h2⟩ | ⟨h1, h2⟩) | h1) | h1
  · left; left; left; right; omega
  · left; left; right; omega
  · left; right; exact h1
  · right; exact h1

/-! ### Sanitization: output shape, fixpoints, idempotence -/

theorem sanitizeChars_shape (l : List Char) :
    (∀ c ∈ sanitizeChars l, lowerValid c) ∧ NoAdj (sanitizeChars l) ∧
    (∀ c, (sanitizeChars l).head? = some c → c ≠ '-') ∧
    (∀ c, (sanitizeChars l).getLast? = some c → c ≠ '-') := by
  rw [sanitizeChars, pyLower]
  refine ⟨?_, ?_, ?_, ?_⟩
  · intro c hc
    rcases List.mem_map.mp hc with ⟨b, hb, rfl⟩
    exact lowerValid_toLower
      (mem_subInvalid (mem_collapseDashes (mem_stripDashes hb)))
  · rw [NoAdj, List.chain'_map]
    refine List.Chain'.imp ?_
      (noAdj_stripDashes (noAdj_collapseDashes (subInvalid l)))
    intro a b hab ⟨ha, hb⟩
    exact hab ⟨toLower_eq_dash ha, toLower_eq_dash hb⟩
  · intro c hc
    rw [List.head?_map] at hc
    match hm : (stripDashes (collapseDashes (subInvalid l))).head? with
    | none => rw [hm] at hc; cases hc
    | some b =>
      rw [hm] at hc
      cases hc
      intro hd
      exact stripDashes_head_ne hm (toLower_eq_dash hd)
  · intro c hc
    rw [List.getLast?_map] at hc
    match hm : (stripDashes (collapseDashes (subInvalid l))).getLast? with
    | none => rw [hm] at hc; cases hc
    | some b =>
      rw [hm] at hc
      cases hc
      intro hd
      exact stripDashes_getLast_ne hm (toLower_eq_dash hd)

theorem sanitizeChars_eq_self {l : List Char}
    (hv : ∀ c ∈ l, lowerValid c) (hna : NoAdj l)
    (hh : ∀ c, l.head? = some c → c ≠ '-')
    (hl : ∀ c, l.getLast? = some c → c ≠ '-') :
    sanitizeChars l = l := by
  rw [sanitizeChars, subInvalid_eq_self (fun c hc => lowerValid_validChar (hv c hc)),
    collapseDashes_eq_self hna, stripDashes_eq_self hh hl, pyLower]
  conv_rhs => rw [← List.map_id l]
  exact List.map_congr_left (fun c hc => toLower_fixed (hv c hc))

theorem sanitizeChars_idem (l : List Char) :
    sanitizeChars (sanitizeChars l) = sanitizeChars l := by
  obtain ⟨hv, hna, hh, hl⟩ := sanitizeChars_shape l
  exact sanitizeChars_eq_self hv hna hh hl

/-! ### Decimal print/parse round trip -/

theorem toNat_digitChar {d : Nat} (h : d < 10) : (digitChar d).toNat = 48 + d :=
  toNat_ofNat_valid (by omega)

theorem mem_natDigitsAux_digit : ∀ (fuel n : Nat) {c : Char}, n < fuel →
    c ∈ natDigitsAux fuel n → 48 ≤ c.toNat ∧ c.toNat ≤ 57 := by
  intro fuel
  induction fuel with
  | zero =>
    intro n c h hm
    omega
  | succ fuel ih =>
    intro n c h hm
    rw [natDigitsAux] at hm
    by_cases hn : n < 10
    · rw [if_pos hn] at hm
      simp at hm
      subst hm
      rw [toNat_digitChar hn]
      omega
    · rw [if_neg hn] at hm
      rcases List.mem_append.mp hm with hm | hm
      · refine ih (n / 10) ?_ hm
        have := Nat.div_lt_self (show 0 < n by omega) (show 1 < 10 by omega)
        omega
      · simp at hm
        subst hm
        rw [toNat_digitChar (Nat.mod_lt _ (by omega))]
        have := Nat.mod_lt n (y := 10) (by omega)
        omega

theorem mem_natDigits_digit {c : Char} {n : Nat} (h : c ∈ natDigits n) :
    48 ≤ c.toNat ∧ c.toNat ≤ 57 :=
  mem_natDigitsAux_digit (n + 1) n (by omega) h

theorem natDigits_ne_nil (n : Nat) : natDigits n ≠ [] := by
  rw [natDigits, natDigitsAux]
  by_cases hn : n < 10
  · rw [if_pos hn]
    simp
  · rw [if_neg hn]
    simp

theorem digitVal_digitChar {d : Nat} (h : d < 10) :
    digitVal (digitChar d) = some d := by
  rw [digitVal, toNat_digitChar h, if_pos (by omega)]
  congr 1
  omega

theorem parseDigitsAux_append (acc : Nat) (l1 l2 : List Char) :
    parseDigitsAux acc (l1 ++ l2) =
      match parseDigitsAux acc l1 with
      | some a => parseDigitsAux a l2
      | none => none := by
  induction l1 generalizing acc with
  | nil => rfl
  | cons c t ih =>
    rw [List.cons_append]
    simp only [parseDigitsAux]
    cases hdv : digitVal c with
    | none => rfl
    | some d => exact ih (acc * 10 + d)

theorem parseDigitsAux_natDigitsAux : ∀ (fuel n : Nat), n < fuel → ∀ acc,
    parseDigitsAux acc (natDigitsAux fuel n) =
      some (acc * 10 ^ (natDigitsAux fuel n).length + n) := by
  intro fuel
  induction fuel with
  | zero =>
    intro n h
    omega
  | succ fuel ih =>
    intro n h acc
    rw [natDigitsAux]
    by_cases hn : n < 10
    · rw [if_pos hn]
      simp only [parseDigitsAux]
      rw [digitVal_digitChar hn]
      simp [parseDigitsAux]
    · rw [if_neg hn]
      rw [parseDigitsAux_append]
      have hlt : n / 10 < fuel := by
        have := Nat.div_lt_self (show 0 < n by omega) (show 1 < 10 by omega)
        omega
      rw [ih (n / 10) hlt acc]
      simp only [parseDigitsAux]
      rw [digitVal_digitChar (Nat.mod_lt _ (by omega))]
      simp only [parseDigitsAux, List.length_append, List.length_cons,
        List.length_nil]
      congr 1
      have hpow : (10 : Nat) ^ ((natDigitsAux fuel (n / 10)).length + (0 + 1)) =
          10 ^ (natDigitsAux fuel (n / 10)).length * 10 := by
        rw [pow_succ]
      rw [hpow]
      generalize (10 : Nat) ^ (natDigitsAux fuel (n / 10)).length = B
      have hmul : acc * (B * 10) = acc * B * 10 := by ring
      omega

theorem parseDigitsAux_natDigits (n : Nat) : ∀ acc,
    parseDigitsAux acc (natDigits n) =
      some (acc * 10 ^ (natDigits n).length + n) :=
  fun acc => parseDigitsAux_natDigitsAux (n + 1) n (by omega) acc

theorem pyInt_printNat (n : Nat) : pyInt (printNat n).data = some n := by
  have h := parseDigitsAux_natDigits n 0
  have hne := natDigits_ne_nil n
  have hd : (printNat n).data = natDigits n := rfl
  rw [hd]
  cases hm : natDigits n with
  | nil => exact absurd hm hne
  | cons c t =>
    rw [hm] at h
    simpa [pyInt] using h

/-! ### `str.split` lemmas -/

theorem splitOnChar_ne_nil (sep : Char) (l : List Char) :
    splitOnChar sep l ≠ [] := by
  match l with
  | [] => simp [splitOnChar]
  | c :: t =>
    rw [splitOnChar]
    cases splitOnChar sep t with
    | nil => simp
    | cons h r =>
      by_cases hc : c = sep <;> simp [hc]

theorem splitOnChar_not_mem {sep : Char} {l : List Char} (h : sep ∉ l) :
    splitOnChar sep l = [l] := by
  induction l with
  | nil => rfl
  | cons c t ih =>
    have hc : c ≠ sep := fun he => h (he ▸ List.mem_cons_self c t)
    have ht : sep ∉ t := fun he => h (List.mem_cons_of_mem _ he)
    rw [splitOnChar, ih ht]
    simp [hc]

theorem splitOnChar_append {sep : Char} {l1 : List Char} (l2 : List Char)
    (h : sep ∉ l1) :
    splitOnChar sep (l1 ++ sep :: l2) = l1 :: splitOnChar sep l2 := by
  induction l1 with
  | nil =>
    rw [List.nil_append, splitOnChar]
    cases hm : splitOnChar sep l2 with
    | nil => exact absurd hm (splitOnChar_ne_nil sep l2)
    | cons h2 r => simp
  | cons c t ih =>
    have hc : c ≠ sep := fun he => h (he ▸ List.mem_cons_self c t)
    have ht : sep ∉ t := fun he => h (List.mem_cons_of_mem _ he)
    rw [List.cons_append, splitOnChar, ih ht]
    simp [hc]

theorem splitFirst_append {sep : Char} {k : List Char} (v : List Char)
    (h : sep ∉ k) : splitFirst sep (k ++ sep :: v) = some (k, v) := by
  induction k with
  | nil =>
    rw [List.nil_append, splitFirst, if_pos rfl]
  | cons c t ih =>
    have hc : c ≠ sep := fun he => h (he ▸ List.mem_cons_self c t)
    have ht : sep ∉ t := fun he => h (List.mem_cons_of_mem _ he)
    rw [List.cons_append, splitFirst, if_neg hc, ih ht]
    rfl

/-! ## Claim C7 — sanitization is idempotent -/

/-- C7: `FleetManager._sanitize_service_name` is idempotent — for every
string `s`, sanitizing twice equals sanitizing once — and sanitizing
`"Prov New York!!"` yields `"prov-new-york"` (characters outside
`[A-Za-z0-9_-]` replaced by `-`, dash runs collapsed, outer dashes trimmed,
result lower-cased). -/
theorem C7_sanitize_idempotent :
    (∀ s : String,
      sanitizeServiceName (sanitizeServiceName s) = sanitizeServiceName s) ∧
    sanitizeServiceName "Prov New York!!" = "prov-new-york" := by
  constructor
  · intro s
    show (⟨sanitizeChars (sanitizeChars s.data)⟩ : String) =
      ⟨sanitizeChars s.data⟩
    rw [sanitizeChars_idem]
  · rfl

/-! ## Claim C3 — loading a missing document -/

/-- C3 counterexample: `ComposeManager._load` on a path whose file does not
exist does not return an empty store — `Path.open("r")` raises
`FileNotFoundError`. -/
theorem C3_counterexample :
    composeLoad none ≠ Except.ok emptyComposeDoc := by
  simp [composeLoad]

/-- C3 amended: loading from a missing file fails with `FileNotFoundError`
(so constructing a `ComposeManager` on a nonexistent path raises); an
existing document is returned exactly as the YAML layer parsed it, with no
structural validation (the source has no `DocumentFormatError`). -/
theorem C3_load_missing_file_raises :
    composeLoad none = Except.error PyErr.fileNotFound ∧
    ∀ d : ComposeDoc, composeLoad (some d) = Except.ok d :=
  ⟨rfl, fun _ => rfl⟩

/-! ## Claim C6 — control-port derivation -/

/-- C6 counterexample: the derived control port is *not* a function of the
name alone across runs.  Under `PYTHONHASHSEED=1` the name `"a"` hashes to
a control port of 19603; under `PYTHONHASHSEED=2`, to 18797 — two runs of
the program derive different control ports for the same name, because
CPython's string hash is keyed by a per-run secret. -/
theorem C6_counterexample :
    calculateControlPort (pyHashSeeded 1) "a" = 19603 ∧
    calculateControlPort (pyHashSeeded 2) "a" = 18797 ∧
    calculateControlPort (pyHashSeeded 1) "a" ≠
      calculateControlPort (pyHashSeeded 2) "a" := by
  refine ⟨by decide, by decide, ?_⟩
  decide

/-- C6 amended: within one interpreter run (one hash function) the control
port is a deterministic function of the name, and for every run and name it
lies in the reserved 2000-port range starting at the control-port base
(18000–19999). -/
theorem C6_control_port_range (pyHash : String → Int) (name : String) :
    DEFAULT_CONTROL_PORT_START ≤ calculateControlPort pyHash name ∧
    calculateControlPort pyHash name < DEFAULT_CONTROL_PORT_START + 2000 := by
  rw [calculateControlPort]
  have h1 : (0 : Int) ≤ (pyHash name).emod 2000 :=
    Int.emod_nonneg _ (by omega)
  have h2 : (pyHash name).emod 2000 < 2000 :=
    Int.emod_lt_of_pos _ (by omega)
  have h3 : ((pyHash name).emod 2000).toNat < 2000 := by omega
  omega

/-! ## Dict lemmas -/

theorem dictMem_iff {l : List (String × α)} {k : String} :
    dictMem l k = true ↔ k ∈ dictKeys l := by
  simp only [dictMem, dictKeys, List.any_eq_true, List.mem_map,
    decide_eq_true_eq]

theorem dictGet?_getD {l : List (String × String)} {k v : String}
    (h : dictGet? l k = some v) (d : String) : dictGetD l k d = v := by
  induction l with
  | nil => simp [dictGet?] at h
  | cons p t ih =>
    rw [dictGet?] at h
    rw [dictGetD]
    by_cases hk : p.1 = k
    · rw [if_pos hk] at h
      cases p
      rw [if_pos hk]
      exact Option.some.inj h
    · cases p
      rw [if_neg hk] at h ⊢
      exact ih h

theorem dictGet?_mem {l : List (String × α)} {k : String} {v : α}
    (h : dictGet? l k = some v) : dictMem l k = true := by
  induction l with
  | nil => simp [dictGet?] at h
  | cons p t ih =>
    rw [dictGet?] at h
    rw [dictMem, List.any_cons]
    by_cases hk : p.1 = k
    · simp [hk]
    · rw [if_neg hk] at h
      simp only [Bool.or_eq_true, decide_eq_true_eq]
      exact Or.inr (ih h)

theorem dictSetdefault_of_mem {l : List (String × α)} {k : String}
    (h : dictMem l k = true) (v : α) : dictSetdefault l k v = l := by
  rw [dictSetdefault, if_pos h]

theorem dictGet?_append_self {l : List (String × α)} {k : String}
    (h : dictMem l k = false) (v : α) :
    dictGet? (l ++ [(k, v)]) k = some v := by
  induction l with
  | nil => simp [dictGet?]
  | cons p t ih =>
    rw [dictMem, List.any_cons] at h
    simp only [Bool.or_eq_false_iff, decide_eq_false_iff_not] at h
    rw [List.cons_append, dictGet?, if_neg h.1]
    exact ih (by rw [dictMem]; exact h.2)

/-! ## `add_service` behaviour -/

theorem addService_ok {svc : VPNService} {doc doc2 : ComposeDoc}
    (h : addService svc doc = Except.ok doc2) :
    doc2 = composeAfterAdd svc doc ∧ dictMem doc.services svc.name = false := by
  rw [addService] at h
  by_cases hm : dictMem doc.services svc.name
  · rw [if_pos hm] at h
    cases h
  · rw [if_neg hm] at h
    exact ⟨(Except.ok.inj h).symm, by simpa using hm⟩

theorem addAll_nodup_names : ∀ (svcs : List VPNService) (doc : ComposeDoc),
    (dictKeys doc.services).Nodup →
    (dictKeys (addAll svcs doc).services).Nodup := by
  intro svcs
  induction svcs with
  | nil => intro doc h; exact h
  | cons svc rest ih =>
    intro doc h
    show (dictKeys (addAll rest
      (match addService svc doc with
       | .ok d2 => d2
       | .error _ => doc)).services).Nodup
    cases hadd : addService svc doc with
    | error e => exact ih doc h
    | ok d2 =>
      obtain ⟨rfl, hfree⟩ := addService_ok hadd
      refine ih _ ?_
      show (dictKeys (doc.services ++
        [(svc.name, toComposeService svc)])).Nodup
      rw [dictKeys, List.map_append]
      rw [List.nodup_append]
      refine ⟨h, List.nodup_singleton _, ?_⟩
      intro a ha hb
      simp only [List.map_cons, List.map_nil, List.mem_singleton] at hb
      subst hb
      rw [← dictKeys] at ha
      rw [← dictMem_iff] at ha
      rw [hfree] at ha
      cases ha

/-! ## Claim C2 — store uniqueness invariant -/

/-- C2 counterexample: `add_service` checks only the *name*.  Starting from
an empty store, adding `svc-a` and then `svc-b`, both with proxy port 5000
and control port 18500, succeeds, and the reloaded store holds two services
sharing a `port` and a `control_port` — no `DuplicateNameError` (the
source's `ValueError`) is raised for the duplicated port. -/
theorem C2_counterexample :
    (c2deployDoc.bind (listServices pyHash0)).map
      (fun l => l.map (fun s => (s.name, s.port, s.control_port))) =
    Except.ok [("svc-a", 5000, 18500), ("svc-b", 5000, 18500)] := by rfl

/-- C2 amended: the store's per-mutation uniqueness check covers only the
service *name*: `add_service` raises (`ValueError`) exactly when the new
service's name is already a key of the services section — ports are not
checked — and on failure nothing is mutated or saved, so the on-disk
document is unchanged; a successful add appends the one new entry.
Consequently name (not port) uniqueness is preserved by every sequence of
`add_service` calls. -/
theorem C2_add_service_name_uniqueness :
    (∀ (svc : VPNService) (doc : ComposeDoc),
      (∃ e, addService svc doc = Except.error e) ↔
        svc.name ∈ dictKeys doc.services) ∧
    (∀ (svc : VPNService) (doc doc2 : ComposeDoc),
      addService svc doc = Except.ok doc2 →
      doc2 = composeAfterAdd svc doc) ∧
    ∀ (svcs : List VPNService) (doc : ComposeDoc),
      (dictKeys doc.services).Nodup →
      (dictKeys (addAll svcs doc).services).Nodup := by
  refine ⟨?_, ?_, addAll_nodup_names⟩
  · intro svc doc
    rw [addService]
    by_cases hm : dictMem doc.services svc.name
    · rw [if_pos hm]
      simp only [Except.error.injEq, exists_eq']
      exact iff_of_true trivial (dictMem_iff.mp hm)
    · rw [if_neg hm]
      constructor
      · rintro ⟨e, he⟩
        cases he
      · intro hk
        exact absurd (dictMem_iff.mpr hk) hm
  · intro svc doc doc2 h
    exact (addService_ok h).1

/-- C2 witness: the amended theorem applied to the two-fold add of the same
service `svc-a` to the empty store (whose key list is trivially duplicate
free); the resulting store still has duplicate-free names. -/
theorem C2_witness :
    (dictKeys emptyComposeDoc.services).Nodup ∧
    (dictKeys (addAll [c2svcW, c2svcW] emptyComposeDoc).services).Nodup :=
  ⟨by decide,
   C2_add_service_name_uniqueness.2.2 [c2svcW, c2svcW] emptyComposeDoc
     (by decide)⟩

/-! ## `deploy_fleet` invariants -/

theorem deployStep_shape (pyHash : String → Int) (doc : ComposeDoc) (d f : Nat)
    (errs : List String) (sp : ServicePlan) :
    (∃ svc : VPNService, deployStep pyHash (doc, d, f, errs) sp =
      (composeAfterAdd svc doc, d + 1, f, errs)) ∨
    (∃ msg, deployStep pyHash (doc, d, f, errs) sp =
      (doc, d, f + 1, errs ++ [msg])) := by
  cases hmk : mkVPNService pyHash sp.name sp.port sp.provider sp.profile
      sp.location (deployEnvironment sp) (deployLabels sp) 0 with
  | error e =>
    right
    exact ⟨"Failed to create service " ++ sp.name ++ ": " ++ e.msg,
      by simp [deployStep, hmk, Except.bind]⟩
  | ok svc =>
    cases hadd : addService svc doc with
    | error e =>
      right
      exact ⟨"Failed to create service " ++ sp.name ++ ": " ++ e.msg,
        by simp [deployStep, hmk, hadd, Except.bind]⟩
    | ok doc2 =>
      left
      refine ⟨svc, ?_⟩
      obtain ⟨rfl, _⟩ := addService_ok hadd
      simp [deployStep, hmk, hadd, Except.bind]

theorem foldl_deployStep_spec (pyHash : String → Int) :
    ∀ (sps : List ServicePlan) (doc : ComposeDoc) (d f : Nat)
      (errs : List String),
      (sps.foldl (deployStep pyHash) (doc, d, f, errs)).2.1 +
        (sps.foldl (deployStep pyHash) (doc, d, f, errs)).2.2.1 =
        d + f + sps.length ∧
      (sps.foldl (deployStep pyHash) (doc, d, f, errs)).2.2.2.length + f =
        (sps.foldl (deployStep pyHash) (doc, d, f, errs)).2.2.1 +
          errs.length ∧
      ∃ tail, (sps.foldl (deployStep pyHash) (doc, d, f, errs)).1.services =
        doc.services ++ tail := by
  intro sps
  induction sps with
  | nil =>
    intro doc d f errs
    refine ⟨by simp, by simp [Nat.add_comm], [], by simp⟩
  | cons sp rest ih =>
    intro doc d f errs
    rw [List.foldl_cons]
    rcases deployStep_shape pyHash doc d f errs sp with ⟨svc, hs⟩ | ⟨msg, hs⟩
    · rw [hs]
      obtain ⟨h1, h2, tail, h3⟩ := ih (composeAfterAdd svc doc) (d + 1) f errs
      simp only [List.length_cons]
      refine ⟨by omega, by omega, ?_⟩
      refine ⟨(svc.name, toComposeService svc) :: tail, ?_⟩
      rw [h3]
      simp [composeAfterAdd]
    · rw [hs]
      obtain ⟨h1, h2, tail, h3⟩ := ih doc d (f + 1) (errs ++ [msg])
      simp only [List.length_cons]
      refine ⟨by omega, ?_, ⟨tail, h3⟩⟩
      rw [List.length_append] at h2
      simp only [List.length_cons, List.length_nil] at h2
      omega

theorem deployFleet_spec (pyHash : String → Int) (plan : DeploymentPlan)
    (doc : ComposeDoc) :
    (deployFleet pyHash plan doc).result.deployed +
      (deployFleet pyHash plan doc).result.failed = plan.services.length ∧
    (deployFleet pyHash plan doc).result.errors.length =
      (deployFleet pyHash plan doc).result.failed ∧
    (∃ tail, (deployFleet pyHash plan doc).doc.services =
        doc.services ++ tail) ∧
    (deployFleet pyHash plan doc).result.services = serviceNames plan := by
  obtain ⟨h1, h2, h3⟩ := foldl_deployStep_spec pyHash plan.services doc 0 0 []
  simp only [List.length_nil] at h2
  refine ⟨by simpa using h1, ?_, h3, rfl⟩
  show (plan.services.foldl (deployStep pyHash) (doc, 0, 0, [])).2.2.2.length =
    (plan.services.foldl (deployStep pyHash) (doc, 0, 0, [])).2.2.1
  omega

/-! ## Claim C10 — per-entry counting -/

/-- C10: for every plan, `deploy_fleet` returns `deployed + failed` equal to
the number of plan entries, and exactly `failed` error messages: each entry
increments exactly one of the two counters and appends an error message iff
it failed. -/
theorem C10_deploy_counts (pyHash : String → Int) (plan : DeploymentPlan)
    (doc : ComposeDoc) :
    (deployFleet pyHash plan doc).result.deployed +
      (deployFleet pyHash plan doc).result.failed = plan.services.length ∧
    (deployFleet pyHash plan doc).result.errors.length =
      (deployFleet pyHash plan doc).result.failed :=
  ⟨(deployFleet_spec pyHash plan doc).1, (deployFleet_spec pyHash plan doc).2.1⟩

/-! ## Claim C1 — rollback -/

/-- C1 counterexample: a two-entry plan whose 2nd entry fails to add
(duplicate name) does *not* leave the store empty — after `deploy_fleet` the
store still contains the batch's 1st service, so it holds 1 of the 2, not
0; no rollback happens. -/
theorem C1_counterexample :
    (deployFleet pyHash0 planAA emptyComposeDoc).result.failed = 1 ∧
    ((deployFleet pyHash0 planAA emptyComposeDoc).doc.services.map Prod.fst) =
      ["svc-a"] := ⟨rfl, rfl⟩

/-- C1 amended: there is no rollback — `deploy_fleet` never removes a
service from the store; the final document is always the initial document
with the batch's successful additions appended in plan order, so services
added before a failing entry remain in the store. -/
theorem C1_no_rollback_append_only (pyHash : String → Int)
    (plan : DeploymentPlan) (doc : ComposeDoc) :
    ∃ tail, (deployFleet pyHash plan doc).doc.services =
      doc.services ++ tail :=
  (deployFleet_spec pyHash plan doc).2.2.1

/-! ## Claim C4 — which services get a container start -/

/-- C4 counterexample: the start phase receives the name of *every* plan
entry, not only the successfully added ones: with `svc-b` already in the
store, deploying the plan `[svc-a, svc-b]` fails the add of `svc-b` (one
error, store gains only `svc-a`) yet a container start is attempted for
`svc-b` as well. -/
theorem C4_counterexample :
    (deployFleet pyHash0 planAB c4doc0).startAttempts = ["svc-a", "svc-b"] ∧
    (deployFleet pyHash0 planAB c4doc0).result.errors =
      ["Failed to create service svc-b: Service svc-b already exists"] ∧
    ((deployFleet pyHash0 planAB c4doc0).doc.services.map Prod.fst) =
      ["svc-b", "svc-a"] := ⟨rfl, rfl, rfl⟩

/-- C4 amended: a container start (create-if-absent, then start) is
attempted exactly for the plan entries with a non-empty name — in
particular for every entry of a plan with non-empty names, whether or not
its store-add succeeded. -/
theorem C4_starts_all_planned (pyHash : String → Int) (plan : DeploymentPlan)
    (doc : ComposeDoc) (h : ∀ sp ∈ plan.services, sp.name ≠ "") :
    (deployFleet pyHash plan doc).startAttempts = serviceNames plan := by
  show (plan.services.filter (fun s => s.name ≠ "")).map ServicePlan.name =
    serviceNames plan
  rw [List.filter_eq_self.mpr (by simpa using h)]
  rfl

/-- C4 witness: the amended theorem applied to the plan `[svc-a, svc-b]`
over the store that already holds `svc-b`. -/
theorem C4_starts_all_planned_witness :
    (∀ sp ∈ planAB.services, sp.name ≠ "") ∧
    (deployFleet pyHash0 planAB c4doc0).startAttempts = serviceNames planAB :=
  ⟨by decide, C4_starts_all_planned pyHash0 planAB c4doc0 (by decide)⟩

/-! ## Claim C9 — the result's service list -/

/-- C9 counterexample: `DeploymentResult.services` is `plan.service_names`,
the names of *all* plan entries: deploying `[svc-a, svc-b]` onto a store
already holding `svc-b` activates only `svc-a` (`deployed = 1`), yet the
result lists both names, including the failed `svc-b`. -/
theorem C9_counterexample :
    (deployFleet pyHash0 planAB c4doc0).result.services =
      ["svc-a", "svc-b"] ∧
    (deployFleet pyHash0 planAB c4doc0).result.deployed = 1 ∧
    (deployFleet pyHash0 planAB c4doc0).result.errors =
      ["Failed to create service svc-b: Service svc-b already exists"] :=
  ⟨rfl, rfl, rfl⟩

/-- C9 amended: the returned `DeploymentResult` lists as its `services` the
names of *all* plan entries in plan order (failed ones included), together
with the deployed count, failed count, and one error message per failed
service in the order encountered. -/
theorem C9_result_lists_all_planned (pyHash : String → Int)
    (plan : DeploymentPlan) (doc : ComposeDoc) :
    (deployFleet pyHash plan doc).result.services = serviceNames plan ∧
    (deployFleet pyHash plan doc).result.errors.length =
      (deployFleet pyHash plan doc).result.failed :=
  ⟨(deployFleet_spec pyHash plan doc).2.2.2,
   (deployFleet_spec pyHash plan doc).2.1⟩

/-! ## Profile-allocator lemmas (for `plan_deployment`) -/

theorem allocateSlot_keys (rem : List (String × Nat)) (prof : String) :
    (allocateSlot rem prof).map Prod.fst = rem.map Prod.fst := by
  rw [allocateSlot, List.map_map]
  apply List.map_congr_left
  intro p _
  by_cases hp : p.1 = prof <;> simp [hp]

theorem allocateSlot_not_mem {rem : List (String × Nat)} {prof : String}
    (h : prof ∉ rem.map Prod.fst) : allocateSlot rem prof = rem := by
  rw [allocateSlot]
  conv_rhs => rw [← List.map_id rem]
  apply List.map_congr_left
  intro p hp
  have hne : p.1 ≠ prof := fun he =>
    h (he ▸ List.mem_map_of_mem Prod.fst hp)
  simp [hne]

theorem getNextAvailable_of_profFlat_ne :
    ∀ rem : List (String × Nat), profFlat rem ≠ [] →
      ∃ prof, getNextAvailable rem = some prof := by
  intro rem
  induction rem with
  | nil =>
    intro h
    simp [profFlat] at h
  | cons p t ih =>
    intro h
    by_cases hp : 0 < p.2
    · refine ⟨p.1, ?_⟩
      rw [getNextAvailable, List.find?_cons_of_pos _ (by simpa using hp)]
      rfl
    · have hp0 : p.2 = 0 := by omega
      have hflat : profFlat (p :: t) = profFlat t := by
        simp [profFlat, hp0]
      rcases ih (by rw [← hflat]; exact h) with ⟨prof, hprof⟩
      refine ⟨prof, ?_⟩
      rw [getNextAvailable] at hprof ⊢
      rw [List.find?_cons_of_neg _ (by simp [hp0])]
      exact hprof

theorem profFlat_allocate : ∀ (rem : List (String × Nat)),
    (rem.map Prod.fst).Nodup → ∀ {prof : String},
    getNextAvailable rem = some prof →
    profFlat rem = prof :: profFlat (allocateSlot rem prof) := by
  intro rem
  induction rem with
  | nil =>
    intro _ prof h
    simp [getNextAvailable] at h
  | cons p t ih =>
    intro hnd prof h
    have hhead : p.1 ∉ t.map Prod.fst := by
      rw [List.map_cons, List.nodup_cons] at hnd
      exact hnd.1
    rw [getNextAvailable] at h
    by_cases hp : 0 < p.2
    · rw [List.find?_cons_of_pos _ (by simpa using hp)] at h
      have hprof : prof = p.1 := (Option.some.inj h).symm
      subst hprof
      have halloc : allocateSlot (p :: t) p.1 =
          (p.1, p.2 - 1) :: t := by
        rw [allocateSlot, List.map_cons, if_pos rfl,
          show List.map _ t = allocateSlot t p.1 from rfl,
          allocateSlot_not_mem hhead]
      rw [halloc]
      show (List.map (fun q => List.replicate q.2 q.1) (p :: t)).flatten =
        p.1 :: (List.map (fun q => List.replicate q.2 q.1)
          ((p.1, p.2 - 1) :: t)).flatten
      rw [List.map_cons, List.map_cons, List.flatten_cons, List.flatten_cons]
      have hrep : List.replicate p.2 p.1 =
          p.1 :: List.replicate (p.2 - 1) p.1 := by
        have h2 : p.2 = (p.2 - 1) + 1 := by omega
        rw [h2, List.replicate_succ]
        simp
      rw [hrep]
      rfl
    · have hp0 : p.2 = 0 := by omega
      rw [List.find?_cons_of_neg _ (by simp [hp0])] at h
      cases hf : List.find? (fun q => 0 < q.2) t with
      | none =>
        rw [hf] at h
        cases h
      | some e =>
        rw [hf] at h
        have hprof : prof = e.1 := (Option.some.inj h).symm
        have hmem : e ∈ t := List.mem_of_find?_eq_some hf
        have hne : p.1 ≠ prof := by
          intro he
          apply hhead
          rw [he, hprof]
          exact List.mem_map_of_mem Prod.fst hmem
        have halloc : allocateSlot (p :: t) prof =
            p :: allocateSlot t prof := by
          rw [allocateSlot, List.map_cons, if_neg hne]
          rfl
        have ihh : profFlat t = prof :: profFlat (allocateSlot t prof) := by
          apply ih
          · rw [List.map_cons, List.nodup_cons] at hnd
            exact hnd.2
          · rw [getNextAvailable, hf, hprof]
            rfl
        rw [halloc]
        show (List.map (fun q => List.replicate q.2 q.1) (p :: t)).flatten =
          prof :: (List.map (fun q => List.replicate q.2 q.1)
            (p :: allocateSlot t prof)).flatten
        rw [List.map_cons, List.map_cons, List.flatten_cons,
          List.flatten_cons, hp0]
        simp only [List.replicate_zero, List.nil_append]
        exact ihh

theorem profFlat_length (rem : List (String × Nat)) :
    (profFlat rem).length = (rem.map Prod.snd).sum := by
  induction rem with
  | nil => rfl
  | cons p t ih =>
    show ((List.map (fun q => List.replicate q.2 q.1) (p :: t)).flatten).length
      = _
    rw [List.map_cons, List.flatten_cons, List.length_append,
      List.length_replicate, List.map_cons, List.sum_cons]
    rw [← ih]
    rfl

theorem planLoop_spec (provider : String) :
    ∀ (cities : List (String × String)) (rem : List (String × Nat))
      (port : Nat),
      (rem.map Prod.fst).Nodup →
      cities.length ≤ (profFlat rem).length →
      ((planLoop provider cities rem port).map
          (fun s => (s.country, s.location)) = cities ∧
       (planLoop provider cities rem port).map ServicePlan.port =
         (List.range cities.length).map (fun i => port + i) ∧
       (planLoop provider cities rem port).map ServicePlan.profile =
         (profFlat rem).take cities.length) := by
  intro cities
  induction cities with
  | nil =>
    intro rem port h1 h2
    exact ⟨rfl, rfl, rfl⟩
  | cons cc rest ih =>
    intro rem port hnd hlen
    obtain ⟨country, city⟩ := cc
    have hne : profFlat rem ≠ [] := by
      intro he
      rw [he] at hlen
      simp at hlen
    obtain ⟨prof, hprof⟩ := getNextAvailable_of_profFlat_ne rem hne
    have hflat := profFlat_allocate rem hnd hprof
    have hnd2 : ((allocateSlot rem prof).map Prod.fst).Nodup := by
      rw [allocateSlot_keys]
      exact hnd
    have hlen2 : rest.length ≤ (profFlat (allocateSlot rem prof)).length := by
      have hl : (profFlat rem).length =
          (profFlat (allocateSlot rem prof)).length + 1 := by
        rw [hflat]
        rfl
      rw [List.length_cons] at hlen
      omega
    obtain ⟨ih1, ih2, ih3⟩ := ih (allocateSlot rem prof) (port + 1) hnd2 hlen2
    rw [show planLoop provider ((country, city) :: rest) rem port =
      { name := sanitizeServiceName (renderName provider country city)
      , profile := prof
      , location := city
      , country := country
      , port := port
      , provider := provider } ::
        planLoop provider rest (allocateSlot rem prof) (port + 1) by
      rw [planLoop, hprof]]
    refine ⟨?_, ?_, ?_⟩
    · rw [List.map_cons, ih1]
    · rw [List.map_cons, ih2, List.length_cons, List.range_succ_eq_map,
        List.map_cons, List.map_map]
      congr 1
      apply List.map_congr_left
      intro i _
      show port + 1 + i = port + Nat.succ i
      omega
    · rw [List.map_cons, ih3, hflat, List.length_cons, List.take_succ_cons]

/-! ## Claim C8 — planner allocation -/

/-- C8: when the catalog's total city count is at most the declared total
capacity, `plan_deployment` produces one `ServicePlan` per (country, city)
pair — in catalog order — assigns slots by walking the declared profile
capacities in order (each city consuming exactly one slot of the
capacity expansion), and assigns ports consecutively from `port_start`,
one per planned service (hence strictly increasing), independent of skipped
countries (whose cities never enter the sequence). -/
theorem C8_plan_assignment (catalog : String → String → Option (List String))
    (cfg : FleetConfig) (hnd : (cfg.profiles.map Prod.fst).Nodup)
    (hcap : (allCities catalog cfg).length ≤
      (cfg.profiles.map Prod.snd).sum) :
    ((planDeployment catalog cfg).services.map
        (fun s => (s.country, s.location)) = allCities catalog cfg) ∧
    ((planDeployment catalog cfg).services.map ServicePlan.port =
      (List.range (allCities catalog cfg).length).map
        (fun i => cfg.port_start + i)) ∧
    ((planDeployment catalog cfg).services.map ServicePlan.profile =
      (profFlat cfg.profiles).take (allCities catalog cfg).length) := by
  have hflatlen : (profFlat cfg.profiles).length =
      (cfg.profiles.map Prod.snd).sum := profFlat_length _
  have htrunc : ¬ (allCities catalog cfg).length >
      (cfg.profiles.map Prod.snd).sum := by omega
  have h := planLoop_spec cfg.provider (allCities catalog cfg) cfg.profiles
    cfg.port_start hnd (by omega)
  simp only [planDeployment, setupProfiles]
  rw [if_neg htrunc]
  exact h

/-- C8 witness: the amended theorem at the spec's end-to-end example —
countries `A`/`B` with one city each, profiles `acc1`/`acc2` of capacity 1,
ports from 30000. -/
theorem C8_plan_assignment_witness :
    (c8cfg.profiles.map Prod.fst).Nodup ∧
    (allCities c8catalog c8cfg).length ≤
      (c8cfg.profiles.map Prod.snd).sum ∧
    (((planDeployment c8catalog c8cfg).services.map
        (fun s => (s.country, s.location)) = allCities c8catalog c8cfg) ∧
     ((planDeployment c8catalog c8cfg).services.map ServicePlan.port =
       (List.range (allCities c8catalog c8cfg).length).map
         (fun i => c8cfg.port_start + i)) ∧
     ((planDeployment c8catalog c8cfg).services.map ServicePlan.profile =
       (profFlat c8cfg.profiles).take (allCities c8catalog c8cfg).length)) :=
  ⟨by decide, by decide,
   C8_plan_assignment c8catalog c8cfg (by decide) (by decide)⟩

/-! ## Compose round-trip lemmas -/

theorem colon_not_mem_natDigits (n : Nat) : ':' ∉ natDigits n := by
  intro h
  have hb := mem_natDigits_digit h
  have hc : (':').toNat = 58 := rfl
  omega

theorem stringMk_data (s : String) : (⟨s.data⟩ : String) = s := rfl

theorem parsePortMapping_two {m : String} {l1 l2 : List Char}
    (hdata : m.data = l1 ++ ':' :: l2) (hnc1 : ':' ∉ l1) (hnc2 : ':' ∉ l2)
    {v : Nat} (hparse : pyInt l1 = some v) :
    parsePortMapping m = Except.ok (v, l2) := by
  rw [parsePortMapping, hdata, splitOnChar_append _ hnc1,
    splitOnChar_not_mem hnc2]
  simp [hparse]

theorem parsePortMapping_proxy (p : Nat) :
    parsePortMapping (printNat p ++ ":8888/tcp") =
      Except.ok (p, "8888/tcp".data) := by
  refine parsePortMapping_two ?_ (colon_not_mem_natDigits p) (by decide)
    (pyInt_printNat p)
  rw [String.data_append]
  rfl

theorem parsePortMapping_control (p : Nat) :
    parsePortMapping (printNat p ++ ":8000/tcp") =
      Except.ok (p, "8000/tcp".data) := by
  refine parsePortMapping_two ?_ (colon_not_mem_natDigits p) (by decide)
    (pyInt_printNat p)
  rw [String.data_append]
  rfl

theorem scanPortMappings_roundtrip (p cp : Nat) :
    scanPortMappings (0, 0)
      [printNat p ++ ":8888/tcp", printNat cp ++ ":8000/tcp"] =
      Except.ok (p, cp) := by
  rw [scanPortMappings, parsePortMapping_proxy]
  show scanPortMappings _ [printNat cp ++ ":8000/tcp"] = _
  rw [scanPortMappings, parsePortMapping_control]
  show Except.ok _ = _
  rfl

theorem splitFirst_render (k v : String) (h : '=' ∉ k.data) :
    splitFirst '=' (k ++ "=" ++ v).data = some (k.data, v.data) := by
  have hdata : (k ++ "=" ++ v).data = k.data ++ '=' :: v.data := by
    rw [String.data_append, String.data_append, List.append_assoc]
    rfl
  rw [hdata]
  exact splitFirst_append _ h

theorem dictSet_append_absent {l : List (String × String)} {k : String}
    (h : k ∉ l.map Prod.fst) (v : String) : dictSet l k v = l ++ [(k, v)] := by
  induction l with
  | nil => rfl
  | cons p t ih =>
    have hne : p.1 ≠ k := by
      intro he
      exact h (he ▸ List.mem_map_of_mem Prod.fst (List.mem_cons_self p t))
    have ht : k ∉ t.map Prod.fst := by
      intro he
      rcases List.mem_map.mp he with ⟨q, hq, hqe⟩
      exact h (hqe ▸ List.mem_map_of_mem Prod.fst (List.mem_cons_of_mem p hq))
    cases p
    rw [dictSet, if_neg hne, ih ht, List.cons_append]

theorem parseEnvFold_roundtrip :
    ∀ (env acc : List (String × String)),
      (∀ p ∈ env, '=' ∉ p.1.data) →
      ((env.map Prod.fst).Nodup) →
      (∀ p ∈ env, p.1 ∉ acc.map Prod.fst) →
      List.foldl
        (fun d item =>
          match splitFirst '=' item.data with
          | some (k, v) => dictSet d ⟨k⟩ ⟨v⟩
          | none => d)
        acc (env.map (fun p => p.1 ++ "=" ++ p.2)) = acc ++ env := by
  intro env
  induction env with
  | nil =>
    intro acc _ _ _
    simp
  | cons p rest ih =>
    intro acc heq hnd hacc
    rw [List.map_cons, List.foldl_cons]
    have hstep :
        (match splitFirst '=' (p.1 ++ "=" ++ p.2).data with
          | some (k, v) => dictSet acc ⟨k⟩ ⟨v⟩
          | none => acc) = acc ++ [p] := by
      rw [splitFirst_render p.1 p.2 (heq p (List.mem_cons_self p rest))]
      show dictSet acc ⟨p.1.data⟩ ⟨p.2.data⟩ = acc ++ [p]
      rw [stringMk_data, stringMk_data,
        dictSet_append_absent (hacc p (List.mem_cons_self p rest))]
    rw [hstep]
    rw [ih (acc ++ [p])
      (fun q hq => heq q (List.mem_cons_of_mem p hq))
      (by rw [List.map_cons, List.nodup_cons] at hnd; exact hnd.2)
      ?_]
    · rw [List.append_assoc]
      rfl
    · intro q hq
      rw [List.map_append, List.mem_append]
      rintro (hqa | hqk)
      · exact hacc q (List.mem_cons_of_mem p hq) hqa
      · simp only [List.map_cons, List.map_nil, List.mem_singleton] at hqk
        rw [List.map_cons, List.nodup_cons] at hnd
        exact hnd.1 (hqk ▸ List.mem_map_of_mem Prod.fst hq)

theorem parseEnvList_roundtrip (env : List (String × String))
    (heq : ∀ p ∈ env, '=' ∉ p.1.data) (hnd : (env.map Prod.fst).Nodup) :
    parseEnvList (env.map (fun p => p.1 ++ "=" ++ p.2)) = env := by
  have h := parseEnvFold_roundtrip env [] heq hnd (by simp)
  simpa [parseEnvList] using h

theorem toCompose_labels (svc : VPNService)
    (h4 : dictGet? svc.labels "vpn.port" = some (printNat svc.port))
    (h5 : dictGet? svc.labels "vpn.control_port" =
      some (printNat svc.control_port)) :
    (toComposeService svc).labels = svc.labels := by
  show dictSetdefault
      (dictSetdefault svc.labels "vpn.port" (printNat svc.port))
      "vpn.control_port" (printNat svc.control_port) = svc.labels
  rw [dictSetdefault_of_mem (dictGet?_mem h4),
    dictSetdefault_of_mem (dictGet?_mem h5)]

theorem mkVPNService_ok (pyHash : String → Int) (name : String) (port : Nat)
    (provider profile location : String)
    (environment labels : List (String × String)) (cp : Nat)
    (hname : sanitize_name name = name)
    (hport : 1 ≤ port ∧ port ≤ 65535) (hcp : 1 ≤ cp ∧ cp ≤ 65535) :
    mkVPNService pyHash name port provider profile location environment
      labels cp =
    Except.ok ⟨name, port, provider, profile, location, environment,
      labels, cp⟩ := by
  rw [mkVPNService, hname]
  rw [show validate_port port = Except.ok port from by
    rw [validate_port, if_pos hport]]
  show (if cp = 0 then
      (Except.ok (calculateControlPort pyHash name)).bind
        (fun control_port =>
          Except.ok (⟨name, port, provider, profile, location, environment,
            labels, control_port⟩ : VPNService))
    else
      (validate_port cp).bind
        (fun control_port =>
          Except.ok (⟨name, port, provider, profile, location, environment,
            labels, control_port⟩ : VPNService))) =
    Except.ok ⟨name, port, provider, profile, location, environment,
      labels, cp⟩
  rw [if_neg (show ¬ cp = 0 by omega)]
  rw [show validate_port cp = Except.ok cp from by
    rw [validate_port, if_pos hcp]]
  rfl

theorem fromTo_roundtrip (pyHash : String → Int) (svc : VPNService)
    (hname : sanitize_name svc.name = svc.name)
    (hport : 1 ≤ svc.port ∧ svc.port ≤ 65535)
    (hcp : 1 ≤ svc.control_port ∧ svc.control_port ≤ 65535)
    (henv : ∀ p ∈ svc.environment, '=' ∉ p.1.data)
    (henvnd : (svc.environment.map Prod.fst).Nodup)
    (h1 : dictGet? svc.labels "vpn.provider" = some svc.provider)
    (h2 : dictGet? svc.labels "vpn.profile" = some svc.profile)
    (h3 : dictGet? svc.labels "vpn.location" = some svc.location)
    (h4 : dictGet? svc.labels "vpn.port" = some (printNat svc.port))
    (h5 : dictGet? svc.labels "vpn.control_port" =
      some (printNat svc.control_port)) :
    fromComposeService pyHash svc.name (toComposeService svc) =
      Except.ok svc := by
  rw [fromComposeService]
  rw [show (toComposeService svc).ports =
    [printNat svc.port ++ ":8888/tcp",
     printNat svc.control_port ++ ":8000/tcp"] from rfl]
  rw [scanPortMappings_roundtrip]
  show mkVPNService pyHash svc.name svc.port
    (dictGetD (toComposeService svc).labels "vpn.provider"
      (dictGetD (parseEnvList (toComposeService svc).environment)
        "VPN_SERVICE_PROVIDER" ""))
    (dictGetD (toComposeService svc).labels "vpn.profile" "")
    (dictGetD (toComposeService svc).labels "vpn.location"
      (dictGetD (parseEnvList (toComposeService svc).environment)
        "SERVER_CITIES" ""))
    (parseEnvList (toComposeService svc).environment)
    (toComposeService svc).labels svc.control_port = Except.ok svc
  rw [show (toComposeService svc).environment =
    svc.environment.map (fun p => p.1 ++ "=" ++ p.2) from rfl]
  rw [parseEnvList_roundtrip svc.environment henv henvnd]
  rw [toCompose_labels svc h4 h5]
  rw [dictGet?_getD h1, dictGet?_getD h2, dictGet?_getD h3]
  rw [mkVPNService_ok pyHash svc.name svc.port svc.provider svc.profile
    svc.location svc.environment svc.labels svc.control_port hname hport hcp]

/-! ## Claim C5 — store round trip -/

/-- C5 counterexample: the round trip is not the identity for every
`VPNService`.  A service with empty `labels` and `environment` is added
successfully, but the reloaded service's `provider` is `""` (recovered from
the absent `vpn.provider` label), not the original `"prov"`; its labels
also gain `vpn.port`/`vpn.control_port` entries. -/
theorem C5_counterexample :
    addService c5bad emptyComposeDoc =
      Except.ok (composeAfterAdd c5bad emptyComposeDoc) ∧
    (getService pyHash0 "plain"
        (composeAfterAdd c5bad emptyComposeDoc)).map VPNService.provider =
      Except.ok "" ∧
    c5bad.provider = "prov" := ⟨rfl, rfl, rfl⟩

/-- C5 amended: adding a `VPNService` to the store and reloading yields an
equal service (same name, port, control_port, provider, profile, location,
environment, labels) *provided* the service carries its metadata in the
compose representation the code reads back: the name is sanitize-fixed, the
ports are valid TCP ports, the environment keys contain no `=` and are
duplicate free, and the labels already hold the `vpn.provider`,
`vpn.profile`, `vpn.location`, `vpn.port` and `vpn.control_port` entries
matching the fields (otherwise `provider`/`profile`/`location` are
recovered from labels/environment defaults and the label dict gains the two
port entries, so the round trip is not the identity). -/
theorem C5_roundtrip (pyHash : String → Int) (svc : VPNService)
    (doc : ComposeDoc)
    (hname : sanitize_name svc.name = svc.name)
    (hport : 1 ≤ svc.port ∧ svc.port ≤ 65535)
    (hcp : 1 ≤ svc.control_port ∧ svc.control_port ≤ 65535)
    (henv : ∀ p ∈ svc.environment, '=' ∉ p.1.data)
    (henvnd : (svc.environment.map Prod.fst).Nodup)
    (h1 : dictGet? svc.labels "vpn.provider" = some svc.provider)
    (h2 : dictGet? svc.labels "vpn.profile" = some svc.profile)
    (h3 : dictGet? svc.labels "vpn.location" = some svc.location)
    (h4 : dictGet? svc.labels "vpn.port" = some (printNat svc.port))
    (h5 : dictGet? svc.labels "vpn.control_port" =
      some (printNat svc.control_port))
    (hfree : dictMem doc.services svc.name = false) :
    addService svc doc = Except.ok (composeAfterAdd svc doc) ∧
    composeLoad (some (composeAfterAdd svc doc)) =
      Except.ok (composeAfterAdd svc doc) ∧
    getService pyHash svc.name (composeAfterAdd svc doc) = Except.ok svc := by
  refine ⟨?_, rfl, ?_⟩
  · rw [addService, if_neg (by rw [hfree]; exact Bool.false_ne_true)]
    rfl
  · rw [getService]
    rw [show (composeAfterAdd svc doc).services =
      doc.services ++ [(svc.name, toComposeService svc)] from rfl]
    rw [dictGet?_append_self hfree]
    exact fromTo_roundtrip pyHash svc hname hport hcp henv henvnd h1 h2 h3
      h4 h5

/-- C5 witness: the amended round trip at the concrete service `vpn3`
(port 7777, control port 18500, full `vpn.*` label metadata) over the empty
store. -/
theorem C5_roundtrip_witness :
    (sanitize_name c5svc.name = c5svc.name) ∧
    (1 ≤ c5svc.port ∧ c5svc.port ≤ 65535) ∧
    (1 ≤ c5svc.control_port ∧ c5svc.control_port ≤ 65535) ∧
    (∀ p ∈ c5svc.environment, '=' ∉ p.1.data) ∧
    ((c5svc.environment.map Prod.fst).Nodup) ∧
    (dictMem emptyComposeDoc.services c5svc.name = false) ∧
    getService pyHash0 c5svc.name (composeAfterAdd c5svc emptyComposeDoc) =
      Except.ok c5svc :=
  ⟨by decide, by decide, by decide, by decide, by decide, by decide,
   (C5_roundtrip pyHash0 c5svc emptyComposeDoc (by decide) (by decide)
     (by decide) (by decide) (by decide) (by decide) (by decide) (by decide)
     (by decide) (by decide) (by decide)).2.2⟩

end Proxy2vpn
